import Mathlib

/-!
Shallow embedding of `src/services/apiKeys/api_key_middleware.py`
(classes `APIKeyValidator` and `APIKeyMiddleware`).

Modelling conventions:
* Python strings are Lean `String`s; all character-level work is done on
  `String.data` (Python indexes/slices strings by character, as Lean's
  `List Char` does).
* `time.time()` and UTC datetimes are modelled as integer epoch seconds
  (`Int`); Python's floor division `// 60` on a non-negative float of
  integral seconds coincides with `Int.fdiv`.
* The Firestore query result is an explicit `Except Unit (List ApiKeyRecord)`:
  `.error` models the store client raising, `.ok rs` models the stream of
  documents (already filtered by `agent_id ==` and `status == 'active'`,
  which Firestore performs server-side).
* The SHA-256 hex digest `hashlib.sha256(k.encode()).hexdigest()` is an
  opaque parameter `h : String → String`; nothing below depends on the
  digest algorithm itself.
* A raised Python exception is an `Except.error` / `Option.none` result.
* Python floats that are only stored and sign-compared (`cost_usd`) are
  modelled as `ℚ`.
-/

namespace ApiKeyMw

/-! ### `_secure_compare` (api_key_middleware.py lines 109-126) -/

/-- Accumulation of `result |= ord(x) ^ ord(y)` over `zip(a, b)`. -/
def xorFold (l : List (Char × Char)) (acc : Nat) : Nat :=
  l.foldl (fun r p => r ||| (p.1.toNat ^^^ p.2.toNat)) acc

/-- Model of `APIKeyValidator._secure_compare`: length check, then the XOR-aggregate
comparison `result == 0`. -/
def secure_compare (a b : String) : Bool :=
  if a.data.length ≠ b.data.length then false
  else xorFold (a.data.zip b.data) 0 == 0

/-! Helper lemmas. -/

theorem lor_eq_zero_iff (m n : Nat) : m ||| n = 0 ↔ m = 0 ∧ n = 0 := by
  constructor
  · intro h
    have hb : ∀ i, Nat.testBit m i = false ∧ Nat.testBit n i = false := by
      intro i
      have hc := congrArg (fun x => Nat.testBit x i) h
      simpa [Nat.testBit_lor, Nat.zero_testBit, Bool.or_eq_false_iff] using hc
    constructor
    · exact Nat.eq_of_testBit_eq fun i => by simp [(hb i).1, Nat.zero_testBit]
    · exact Nat.eq_of_testBit_eq fun i => by simp [(hb i).2, Nat.zero_testBit]
  · rintro ⟨rfl, rfl⟩; rfl

theorem char_toNat_inj {c d : Char} (h : c.toNat = d.toNat) : c = d := by
  apply Char.eq_of_val_eq
  apply UInt32.eq_of_toBitVec_eq
  exact BitVec.eq_of_toNat_eq h

theorem xorFold_eq_zero (l : List (Char × Char)) (acc : Nat) :
    xorFold l acc = 0 ↔ acc = 0 ∧ ∀ p ∈ l, p.1 = p.2 := by
  induction l generalizing acc with
  | nil => simp [xorFold]
  | cons x xs ih =>
    simp only [xorFold, List.foldl_cons] at *
    rw [ih]
    rw [lor_eq_zero_iff, Nat.xor_eq_zero]
    constructor
    · rintro ⟨⟨h1, h2⟩, h3⟩
      exact ⟨h1, by
        intro p hp
        rcases List.mem_cons.mp hp with rfl | hp
        · exact char_toNat_inj h2
        · exact h3 p hp⟩
    · rintro ⟨h1, h2⟩
      exact ⟨⟨h1, by rw [h2 x (List.mem_cons_self _ _)]⟩,
             fun p hp => h2 p (List.mem_cons_of_mem _ hp)⟩

theorem mem_zip_same : ∀ {l : List Char} {p : Char × Char}, p ∈ l.zip l → p.1 = p.2 := by
  intro l
  induction l with
  | nil => intro p hp; cases hp
  | cons x xs ih =>
    intro p hp
    rcases List.mem_cons.mp hp with rfl | hp
    · rfl
    · exact ih hp

theorem secure_compare_iff (a b : String) : secure_compare a b = true ↔ a = b := by
  unfold secure_compare
  by_cases hl : a.data.length = b.data.length
  · rw [if_neg (fun hne => hne hl), beq_iff_eq, xorFold_eq_zero]
    constructor
    · rintro ⟨-, h⟩
      have hdata : a.data = b.data := by
        apply List.ext_get hl
        intro n h1 h2
        have hz : n < (a.data.zip b.data).length := by
          rw [List.length_zip]; exact Nat.lt_min.mpr ⟨h1, h2⟩
        have hm : (a.data[n], b.data[n]) ∈ a.data.zip b.data :=
          List.mem_iff_getElem.mpr ⟨n, hz, List.getElem_zip⟩
        simp only [List.get_eq_getElem]
        exact h _ hm
      cases a; cases b; exact congrArg String.mk hdata
    · rintro rfl
      exact ⟨rfl, fun p hp => mem_zip_same hp⟩
  · rw [if_pos hl]
    constructor
    · intro h; exact absurd h (by decide)
    · intro h; subst h; exact absurd rfl hl

/-- C2: `_secure_compare(a, b)` returns True iff `a = b`: unequal lengths are
rejected immediately, equal lengths are compared by OR-aggregating the
character-wise XORs with no short-circuit, and the aggregate is zero exactly
when every position matches. -/
theorem secure_compare_correct (a b : String) :
    secure_compare a b = true ↔ a = b :=
  secure_compare_iff a b

/-! ### `validate_api_key` (api_key_middleware.py lines 58-107)

One stored key document, as returned by the filtered query
(`agent_id == ...`, `status == 'active'`), with `doc_data['id'] = doc.id`
already applied.  `key_hash` is `Option` because `doc_data.get('key_hash')`
may be `None`; the Python truthiness test `if stored_hash` additionally
rejects the empty string.  `expires_at` is the parsed expiry as epoch
seconds; `none` covers both an absent and a falsy field. -/

structure ApiKeyRecord where
  id : String
  key_hash : Option String
  expires_at : Option Int
  rate_limit : Option Int
  created_by : Option String
  organization_id : Option String
deriving DecidableEq

/-- Test `stored_hash and self._secure_compare(key_hash, stored_hash)`. -/
def matchesHash (key_hash : String) (r : ApiKeyRecord) : Bool :=
  match r.key_hash with
  | some s => (s ≠ "" : Bool) && secure_compare key_hash s
  | none => false

/-- The `for doc in query:` loop body of `validate_api_key`: on the first
hash match the expiry check either returns the document or returns `None`
for the whole call (the loop does not continue past an expired match). -/
def validateLoop (now : Int) (key_hash : String) : List ApiKeyRecord → Option ApiKeyRecord
  | [] => none
  | r :: rs =>
    if matchesHash key_hash r then
      match r.expires_at with
      | some e => if now > e then none else some r
      | none => some r
    else validateLoop now key_hash rs

/-- Model of `APIKeyValidator.validate_api_key`.  `h` stands for
`hashlib.sha256(api_key.encode()).hexdigest()`; `query` is the Firestore
stream, `.error` modelling the store client raising — the surrounding
`except Exception: return None` maps that to `none`. -/
def validate_api_key (h : String → String) (now : Int)
    (query : Except Unit (List ApiKeyRecord)) (api_key : String) :
    Option ApiKeyRecord :=
  match query with
  | .error _ => none
  | .ok records => validateLoop now (h api_key) records

theorem matchesHash_true_iff (kh : String) (r : ApiKeyRecord) :
    matchesHash kh r = true ↔ r.key_hash = some kh ∧ kh ≠ "" := by
  unfold matchesHash
  cases hk : r.key_hash with
  | none => simp
  | some s =>
    simp only [Bool.and_eq_true, decide_eq_true_eq, Option.some.injEq]
    rw [secure_compare_iff]
    constructor
    · rintro ⟨h1, rfl⟩; exact ⟨rfl, h1⟩
    · rintro ⟨rfl, h1⟩; exact ⟨h1, rfl⟩

/-- C1: if `r` is among the (active) documents streamed by the query, its
stored `key_hash` is exactly the digest of the candidate key, and no other
streamed document matches that digest (the spec's uniqueness invariant for
`key_hash`), then: a non-expired `r` is returned, and an expired `r`
(`expires_at` set and strictly in the past) makes the call return `None`
despite the hash match. -/
theorem validate_api_key_match (h : String → String) (now : Int)
    (records : List ApiKeyRecord) (key : String) (r : ApiKeyRecord)
    (hmem : r ∈ records)
    (hmatch : r.key_hash = some (h key)) (hne : h key ≠ "")
    (huniq : ∀ s ∈ records, matchesHash (h key) s = true → s = r) :
    ((r.expires_at = none ∨ ∃ e, r.expires_at = some e ∧ now ≤ e) →
        validate_api_key h now (.ok records) key = some r) ∧
    (∀ e, r.expires_at = some e → now > e →
        validate_api_key h now (.ok records) key = none) := by
  have hr : matchesHash (h key) r = true :=
    (matchesHash_true_iff _ _).mpr ⟨hmatch, hne⟩
  unfold validate_api_key
  induction records with
  | nil => cases hmem
  | cons s rs ih =>
    by_cases hs : matchesHash (h key) s = true
    · have hsr : s = r := huniq s (List.mem_cons_self _ _) hs
      subst hsr
      constructor
      · rintro (hnone | ⟨e, he, hle⟩)
        · simp [validateLoop, hs, hnone]
        · simp [validateLoop, hs, he, Int.not_lt.mpr hle]
      · intro e he hgt
        simp [validateLoop, hs, he, hgt]
    · have hmem2 : r ∈ rs := by
        rcases List.mem_cons.mp hmem with rfl | hm
        · exact absurd hr hs
        · exact hm
      have huniq2 : ∀ t ∈ rs, matchesHash (h key) t = true → t = r :=
        fun t ht => huniq t (List.mem_cons_of_mem _ ht)
      have := ih hmem2 huniq2
      constructor
      · intro hexp
        simpa [validateLoop, hs] using this.1 hexp
      · intro e he hgt
        simpa [validateLoop, hs] using this.2 e he hgt

/-- Witness for C1 at a concrete input: a single active record whose stored
hash is the digest of the candidate; it is returned when non-expired, and
the same record with a past expiry yields `None`. -/
theorem validate_api_key_match_witness :
    validate_api_key (fun _ => "d1") 1000
      (.ok [{ id := "k1", key_hash := some "d1", expires_at := none,
              rate_limit := none, created_by := none, organization_id := none }])
      "ak_secret"
      = some { id := "k1", key_hash := some "d1", expires_at := none,
               rate_limit := none, created_by := none, organization_id := none } ∧
    validate_api_key (fun _ => "d1") 1000
      (.ok [{ id := "k1", key_hash := some "d1", expires_at := some 999,
              rate_limit := none, created_by := none, organization_id := none }])
      "ak_secret"
      = none := by
  constructor
  · exact (validate_api_key_match (fun _ => "d1") 1000 _ "ak_secret" _
      (by decide) (by decide) (by decide) (by decide)).1 (Or.inl rfl)
  · exact (validate_api_key_match (fun _ => "d1") 1000 _ "ak_secret"
      { id := "k1", key_hash := some "d1", expires_at := some 999,
        rate_limit := none, created_by := none, organization_id := none }
      (by decide) (by decide) (by decide) (by decide)).2 999 rfl (by decide)

/-! ### `check_rate_limit` (api_key_middleware.py lines 128-162)

The cache is `self.rate_limit_cache`, a Python dict from the composite
string key `f"{api_key_id}:{minute_window}"` to a counter.  Dicts preserve
insertion order: a new key is appended, an update keeps its position, so an
insertion-ordered association list (unique keys in every reachable state)
is a faithful model. -/

abbrev RateCache := List (String × Nat)

/-- Python `str.split(sep)` for a one-character separator (always returns
a non-empty list of fragments). -/
def splitChar (sep : Char) : List Char → List (List Char)
  | [] => [[]]
  | c :: cs =>
    match splitChar sep cs with
    | [] => [[]]
    | h :: t => if c = sep then [] :: h :: t else (c :: h) :: t

def digitVal (c : Char) : Nat := c.toNat - 48

def isDigitCh (c : Char) : Bool := 48 ≤ c.toNat && c.toNat ≤ 57

def digitsVal (l : List Char) : Nat := l.foldl (fun a c => 10 * a + digitVal c) 0

/-- Python `int(s)` on the canonical forms `str` produces for an `int`
(optional minus sign followed by decimal digits); any other shape raises
`ValueError`, modelled as `none`.  (CPython also tolerates surrounding
whitespace, `+` and underscores; no such string arises here.) -/
def parsePyInt (l : List Char) : Option Int :=
  match l with
  | [] => none
  | c :: rest =>
    if c = '-' then
      if rest ≠ [] && rest.all isDigitCh then some (-(digitsVal rest : Int)) else none
    else
      if (c :: rest).all isDigitCh then some ((digitsVal (c :: rest) : Nat) : Int) else none

/-- Decimal digits of `n`, most significant first.  The first argument is
recursion fuel; any `fuel ≥ n` gives the digits of `n`. -/
def natReprAux : Nat → Nat → List Char
  | 0, _ => []
  | fuel + 1, n =>
    if n = 0 then [] else natReprAux fuel (n / 10) ++ [Char.ofNat (48 + n % 10)]

/-- Python `str(n)` for a non-negative integer. -/
def natRepr (n : Nat) : List Char := if n = 0 then ['0'] else natReprAux n n

/-- Python `str(i)` for an int of either sign. -/
def intRepr (i : Int) : List Char :=
  if i < 0 then '-' :: natRepr i.natAbs else natRepr i.natAbs

/-- The composite key `f"{api_key_id}:{minute_window}"`. -/
def mkKey (api_key_id : String) (w : Int) : String :=
  ⟨api_key_id.data ++ ':' :: intRepr w⟩

/-- Model of `int(cache_key.split(':')[1])`: both the IndexError (no second
fragment) and the ValueError (non-numeric fragment) raise, modelled as
`none`. -/
def cacheMinute (k : String) : Option Int :=
  match (splitChar ':' k.data).get? 1 with
  | some cs => parsePyInt cs
  | none => none

def cacheLookup (c : RateCache) (k : String) : Option Nat :=
  match c.find? (fun e => e.1 == k) with
  | some e => some e.2
  | none => none

/-- Assignment `cache[key] = v`: update in place if present, else append. -/
def cacheSet (c : RateCache) (k : String) (v : Nat) : RateCache :=
  if (cacheLookup c k).isSome then c.map (fun e => if e.1 == k then (k, v) else e)
  else c ++ [(k, v)]

/-- Model of `APIKeyValidator.check_rate_limit`.  `now` is `time.time()` in whole
seconds (`int(now // 60)` is `Int.fdiv now 60`).  Returns `none` when the
call raises — which can only happen in the cleanup scan, i.e. on the
Allowed path — otherwise `some (allowed, cache')`.  The Throttled branch
returns before the cleanup scan, leaving the cache as it stood after the
`cache[key] = 0` initialisation. -/
def check_rate_limit (now : Int) (api_key_id : String) (rate_limit : Int)
    (cache : RateCache) : Option (Bool × RateCache) :=
  let minute_window := now.fdiv 60
  let key := mkKey api_key_id minute_window
  let cache1 := if (cacheLookup cache key).isSome then cache else cache ++ [(key, 0)]
  let count := (cacheLookup cache1 key).getD 0
  if (count : Int) ≥ rate_limit then
    some (false, cache1)
  else
    let cache2 := cacheSet cache1 key (count + 1)
    if cache2.all (fun e => (cacheMinute e.1).isSome) then
      some (true, cache2.filter (fun e => !((cacheMinute e.1).getD 0 < minute_window - 1)))
    else
      none

/-- Iterated calls (`n` of them) in the same second, threading the cache and
collecting the results, first call first. -/
def runRepeat (now : Int) (api_key_id : String) (rate_limit : Int) :
    Nat → RateCache → Option (List Bool × RateCache)
  | 0, c => some ([], c)
  | n + 1, c =>
    match check_rate_limit now api_key_id rate_limit c with
    | none => none
    | some (b, c1) =>
      match runRepeat now api_key_id rate_limit n c1 with
      | none => none
      | some (bs, c2) => some (b :: bs, c2)

/-! Lemmas: `str`/`int` round-trip on the composite cache key. -/

theorem digit_toNat {d : Nat} (h : d < 10) : (Char.ofNat (48 + d)).toNat = 48 + d := by
  interval_cases d <;> decide

theorem isDigitCh_digit {d : Nat} (h : d < 10) : isDigitCh (Char.ofNat (48 + d)) = true := by
  simp only [isDigitCh, digit_toNat h, Bool.and_eq_true, decide_eq_true_eq]
  omega

theorem digitVal_digit {d : Nat} (h : d < 10) : digitVal (Char.ofNat (48 + d)) = d := by
  simp only [digitVal, digit_toNat h]
  omega

theorem isDigitCh_ne_dash {c : Char} (h : isDigitCh c = true) : c ≠ '-' := by
  intro heq
  subst heq
  exact absurd h (by decide)

theorem isDigitCh_ne_colon {c : Char} (h : isDigitCh c = true) : c ≠ ':' := by
  intro heq
  subst heq
  exact absurd h (by decide)

theorem digitsVal_append (l : List Char) (c : Char) :
    digitsVal (l ++ [c]) = 10 * digitsVal l + digitVal c := by
  simp [digitsVal, List.foldl_append]

theorem natReprAux_spec :
    ∀ fuel n, n ≤ fuel →
      (natReprAux fuel n).all isDigitCh = true ∧
      digitsVal (natReprAux fuel n) = n ∧
      (n ≠ 0 → natReprAux fuel n ≠ []) := by
  intro fuel
  induction fuel with
  | zero =>
    intro n hn
    have : n = 0 := Nat.le_zero.mp hn
    subst this
    exact ⟨rfl, rfl, fun h => absurd rfl h⟩
  | succ f ih =>
    intro n hn
    by_cases h0 : n = 0
    · subst h0
      simp [natReprAux, digitsVal]
    · have hlt : n / 10 < n := Nat.div_lt_self (Nat.pos_of_ne_zero h0) (by omega)
      have hdiv : n / 10 ≤ f := by omega
      obtain ⟨iha, ihv, -⟩ := ih (n / 10) hdiv
      have hm : n % 10 < 10 := Nat.mod_lt _ (by omega)
      have hunf : natReprAux (f + 1) n
          = natReprAux f (n / 10) ++ [Char.ofNat (48 + n % 10)] := by
        rw [natReprAux, if_neg h0]
      refine ⟨?_, ?_, ?_⟩
      · rw [hunf, List.all_append, iha, Bool.true_and]
        simpa using isDigitCh_digit hm
      · rw [hunf, digitsVal_append, ihv, digitVal_digit hm]
        omega
      · intro _h
        rw [hunf]
        simp


theorem natRepr_spec (n : Nat) :
    (natRepr n).all isDigitCh = true ∧ digitsVal (natRepr n) = n ∧ natRepr n ≠ [] := by
  by_cases h0 : n = 0
  · subst h0; refine ⟨rfl, rfl, by simp [natRepr]⟩
  · obtain ⟨ha, hv, hne⟩ := natReprAux_spec n n (Nat.le_refl n)
    exact ⟨by simpa [natRepr, h0] using ha,
           by simpa [natRepr, h0] using hv,
           by simpa [natRepr, h0] using hne h0⟩

theorem parsePyInt_natRepr (n : Nat) : parsePyInt (natRepr n) = some (n : Int) := by
  obtain ⟨ha, hv, hne⟩ := natRepr_spec n
  obtain ⟨c, cs, hcons⟩ := List.exists_cons_of_ne_nil hne
  have hcd : isDigitCh c = true := by
    have := List.all_eq_true.mp ha
    exact this c (by rw [hcons]; exact List.mem_cons_self _ _)
  rw [hcons]
  simp only [parsePyInt]
  rw [if_neg (isDigitCh_ne_dash hcd), if_pos (by rw [← hcons]; exact ha)]
  rw [← hcons, hv]

theorem parsePyInt_intRepr (i : Int) : parsePyInt (intRepr i) = some i := by
  unfold intRepr
  by_cases hneg : i < 0
  · rw [if_pos hneg]
    obtain ⟨ha, hv, hne⟩ := natRepr_spec i.natAbs
    simp only [parsePyInt]
    rw [if_pos trivial, if_pos (by simp [hne, ha]), hv]
    congr 1
    omega
  · rw [if_neg hneg]
    rw [parsePyInt_natRepr]
    congr 1
    omega

theorem colon_not_mem_natRepr (n : Nat) : ':' ∉ natRepr n := by
  intro hmem
  obtain ⟨ha, -, -⟩ := natRepr_spec n
  exact isDigitCh_ne_colon (List.all_eq_true.mp ha _ hmem) rfl

theorem colon_not_mem_intRepr (i : Int) : ':' ∉ intRepr i := by
  unfold intRepr
  by_cases hneg : i < 0
  · rw [if_pos hneg]
    intro hmem
    rcases List.mem_cons.mp hmem with heq | hmem2
    · cases heq
    · exact colon_not_mem_natRepr _ hmem2
  · rw [if_neg hneg]; exact colon_not_mem_natRepr _

theorem splitChar_ne_nil (sep : Char) (l : List Char) : splitChar sep l ≠ [] := by
  cases l with
  | nil => simp [splitChar]
  | cons c cs =>
    unfold splitChar
    cases splitChar sep cs with
    | nil => simp
    | cons h t =>
      by_cases hc : c = sep <;> simp [hc]

theorem splitChar_not_mem {sep : Char} {l : List Char} (h : sep ∉ l) :
    splitChar sep l = [l] := by
  induction l with
  | nil => rfl
  | cons c cs ih =>
    have hc : c ≠ sep := fun heq => h (heq ▸ List.mem_cons_self _ _)
    have hcs : sep ∉ cs := fun hm => h (List.mem_cons_of_mem _ hm)
    unfold splitChar
    rw [ih hcs]
    simp [hc]

theorem splitChar_append {sep : Char} {l1 : List Char} (l2 : List Char) (h : sep ∉ l1) :
    splitChar sep (l1 ++ sep :: l2) = l1 :: splitChar sep l2 := by
  induction l1 with
  | nil =>
    simp only [List.nil_append]
    cases hs : splitChar sep l2 with
    | nil => exact absurd hs (splitChar_ne_nil sep l2)
    | cons x t =>
      conv_lhs => rw [splitChar]
      rw [hs]
      simp
  | cons c cs ih =>
    have hc : c ≠ sep := fun heq => h (heq ▸ List.mem_cons_self _ _)
    have hcs : sep ∉ cs := fun hm => h (List.mem_cons_of_mem _ hm)
    simp only [List.cons_append]
    conv_lhs => rw [splitChar]
    rw [ih hcs]
    simp [hc]

theorem cacheMinute_mkKey {api_key_id : String} (h : ':' ∉ api_key_id.data) (w : Int) :
    cacheMinute (mkKey api_key_id w) = some w := by
  unfold cacheMinute mkKey
  rw [show (⟨api_key_id.data ++ ':' :: intRepr w⟩ : String).data
        = api_key_id.data ++ ':' :: intRepr w from rfl]
  rw [splitChar_append (intRepr w) h, splitChar_not_mem (colon_not_mem_intRepr w)]
  simp [parsePyInt_intRepr]

theorem mkKey_inj_window {api_key_id : String} (h : ':' ∉ api_key_id.data) {w v : Int}
    (heq : mkKey api_key_id w = mkKey api_key_id v) : w = v := by
  have h1 := cacheMinute_mkKey h w
  have h2 := cacheMinute_mkKey h v
  rw [heq, h2] at h1
  exact (Option.some.inj h1).symm

/-! Single-call behaviour of `check_rate_limit` on the cache shapes reached
from an empty cache. -/

theorem check_step_existing {api_key_id : String} (h : ':' ∉ api_key_id.data)
    (now L : Int) (m : Nat) :
    check_rate_limit now api_key_id L [(mkKey api_key_id (now.fdiv 60), m)]
      = if L ≤ (m : Int)
        then some (false, [(mkKey api_key_id (now.fdiv 60), m)])
        else some (true, [(mkKey api_key_id (now.fdiv 60), m + 1)]) := by
  have hmin := cacheMinute_mkKey h (now.fdiv 60)
  have hnolt : ¬(now.fdiv 60 < now.fdiv 60 - 1) := by omega
  by_cases hm : L ≤ (m : Int)
  · simp [check_rate_limit, cacheLookup, List.find?, ge_iff_le, hm]
  · simp [check_rate_limit, cacheLookup, cacheSet, List.find?, ge_iff_le, hm, hmin, hnolt]

theorem check_step_empty {api_key_id : String} (h : ':' ∉ api_key_id.data) (now L : Int) :
    check_rate_limit now api_key_id L []
      = if L ≤ 0
        then some (false, [(mkKey api_key_id (now.fdiv 60), 0)])
        else some (true, [(mkKey api_key_id (now.fdiv 60), 1)]) := by
  have hmin := cacheMinute_mkKey h (now.fdiv 60)
  have hnolt : ¬(now.fdiv 60 < now.fdiv 60 - 1) := by omega
  by_cases hm : L ≤ (0 : Int)
  · simp [check_rate_limit, cacheLookup, List.find?, ge_iff_le, hm]
  · simp [check_rate_limit, cacheLookup, cacheSet, List.find?, ge_iff_le, hm, hmin, hnolt]

theorem fdiv_add_60 (now : Int) : (now + 60).fdiv 60 = now.fdiv 60 + 1 := by
  rw [Int.fdiv_eq_ediv (now + 60) (by omega), Int.fdiv_eq_ediv now (by omega)]
  have h := Int.add_mul_ediv_right now 1 (by omega : (60 : Int) ≠ 0)
  simpa using h

/-- Behaviour of `runRepeat` from a singleton cache holding the current window's counter
at `m ≤ N`: the next `N - m` calls are Allowed, the rest Throttled, and the
counter saturates at `N`. -/
theorem runRepeat_from {api_key_id : String} (h : ':' ∉ api_key_id.data)
    (now : Int) (N : Nat) :
    ∀ n m : Nat, m ≤ N →
      runRepeat now api_key_id (N : Int) n [(mkKey api_key_id (now.fdiv 60), m)]
        = some (List.replicate (min n (N - m)) true ++ List.replicate (n - (N - m)) false,
                [(mkKey api_key_id (now.fdiv 60), min (m + n) N)]) := by
  intro n
  induction n with
  | zero =>
    intro m hm
    have e1 : min 0 (N - m) = 0 := by omega
    have e2 : 0 - (N - m) = 0 := by omega
    have e3 : min (m + 0) N = m := by omega
    simp [runRepeat, e1, e2, e3, hm]
  | succ k ih =>
    intro m hm
    by_cases hlt : m < N
    · have hstep := check_step_existing h now (N : Int) m
      rw [if_neg (by exact_mod_cast Nat.not_le.mpr hlt)] at hstep
      simp only [runRepeat, hstep]
      rw [ih (m + 1) (by omega)]
      have e1 : min (k + 1) (N - m) = min k (N - (m + 1)) + 1 := by omega
      have e2 : (k + 1) - (N - m) = k - (N - (m + 1)) := by omega
      have e3 : min (m + (k + 1)) N = min (m + 1 + k) N := by omega
      simp [e1, e2, e3, List.replicate_succ]
    · have hmN : m = N := by omega
      have hstep := check_step_existing h now (N : Int) m
      rw [if_pos (by omega : (N : Int) ≤ (m : Nat))] at hstep
      simp only [runRepeat, hstep]
      rw [ih m hm]
      have e1 : min k (N - m) = 0 := by omega
      have e2 : k - (N - m) = k := by omega
      have e3 : min (m + k) N = N := by omega
      have e4 : min (k + 1) (N - m) = 0 := by omega
      have e5 : (k + 1) - (N - m) = k + 1 := by omega
      have e6 : min (m + (k + 1)) N = N := by omega
      simp [e1, e2, e3, e4, e5, e6, List.replicate_succ]

/-- Exactly `M` serialized calls from an empty cache with integer limit `N < M`:
exactly the first `N` are Allowed, the remaining `M - N` Throttled. -/
theorem runRepeat_exact {api_key_id : String} (h : ':' ∉ api_key_id.data)
    (now : Int) (N M : Nat) (hMN : N < M) :
    runRepeat now api_key_id (N : Int) M []
      = some (List.replicate N true ++ List.replicate (M - N) false,
              [(mkKey api_key_id (now.fdiv 60), N)]) := by
  obtain ⟨k, rfl⟩ : ∃ k, M = k + 1 := ⟨M - 1, by omega⟩
  by_cases hN : N = 0
  · subst hN
    have hstep := check_step_empty h now ((0 : Nat) : Int)
    rw [if_pos (by omega : ((0 : Nat) : Int) ≤ 0)] at hstep
    simp only [runRepeat, hstep]
    rw [runRepeat_from h now 0 k 0 (le_refl 0)]
    simp [List.replicate_succ]
  · have hstep := check_step_empty h now ((N : Nat) : Int)
    rw [if_neg (by omega : ¬(((N : Nat) : Int) ≤ 0))] at hstep
    simp only [runRepeat, hstep]
    rw [runRepeat_from h now N k 1 (by omega)]
    have e1 : min k (N - 1) = N - 1 := by omega
    have e2 : k - (N - 1) = (k + 1) - N := by omega
    have e3 : min (1 + k) N = N := by omega
    have e4 : List.replicate N true = true :: List.replicate (N - 1) true := by
      conv_lhs => rw [show N = (N - 1) + 1 by omega]
      rw [List.replicate_succ]
    simp [e1, e2, e3, e4]

/-- A call in the next minute window, with the previous window's entry in
the cache: a fresh counter is started and the previous entry is retained
(it is exactly one window old). -/
theorem check_step_next_window {api_key_id : String} (h : ':' ∉ api_key_id.data)
    (now L : Int) (n : Nat) (hL : 0 < L) :
    check_rate_limit (now + 60) api_key_id L [(mkKey api_key_id (now.fdiv 60), n)]
      = some (true, [(mkKey api_key_id (now.fdiv 60), n),
                     (mkKey api_key_id (now.fdiv 60 + 1), 1)]) := by
  have hw : (now + 60).fdiv 60 = now.fdiv 60 + 1 := fdiv_add_60 now
  have hne : mkKey api_key_id (now.fdiv 60) ≠ mkKey api_key_id (now.fdiv 60 + 1) :=
    fun heq => by have := mkKey_inj_window h heq; omega
  have hbeq : (mkKey api_key_id (now.fdiv 60) == mkKey api_key_id (now.fdiv 60 + 1)) = false :=
    beq_eq_false_iff_ne.mpr hne
  have hmin1 := cacheMinute_mkKey h (now.fdiv 60)
  have hmin2 := cacheMinute_mkKey h (now.fdiv 60 + 1)
  have hL0 : ¬(L ≤ ((0 : Nat) : Int)) := by exact_mod_cast by omega
  have hno1 : ¬(now.fdiv 60 < now.fdiv 60 + 1 - 1) := by omega
  have hno2 : ¬(now.fdiv 60 + 1 < now.fdiv 60 + 1 - 1) := by omega
  simp [check_rate_limit, hw, cacheLookup, cacheSet, List.find?, hbeq, hne, hmin1, hmin2,
        ge_iff_le, hL0, hno1, hno2, hL]

/-- C3 counterexample: the claim quantifies over every key id, but for a key
id containing `':'` (here `"a:0"`) the cleanup scan parses the wrong segment
of the composite cache key (`"a:0:2".split(':')[1] = "0"`), sees a stale
bucket, and deletes the counter that was just incremented.  With limit
`L = 1` in minute bucket 2 the second call — which the claim says is
Throttled — is Allowed, and the cache is empty after each call. -/
theorem check_rate_limit_colon_counterexample :
    runRepeat 120 "a:0" 1 2 [] = some ([true, true], []) := by decide

/-- C3 (amended to key ids without `':'`): from an empty cache, `L` calls in
one minute bucket are each Allowed, the `L+1`-th is Throttled and leaves the
counter at `L` (no increment), and the first call in the following minute
bucket is Allowed again. -/
theorem rate_limit_minute_sequence (api_key_id : String) (h : ':' ∉ api_key_id.data)
    (now L : Int) (hL : 0 < L) :
    runRepeat now api_key_id L (L.toNat + 1) []
      = some (List.replicate L.toNat true ++ [false],
              [(mkKey api_key_id (now.fdiv 60), L.toNat)]) ∧
    check_rate_limit (now + 60) api_key_id L [(mkKey api_key_id (now.fdiv 60), L.toNat)]
      = some (true, [(mkKey api_key_id (now.fdiv 60), L.toNat),
                     (mkKey api_key_id (now.fdiv 60 + 1), 1)]) := by
  have hcast : ((L.toNat : Nat) : Int) = L := Int.toNat_of_nonneg (by omega)
  constructor
  · have hrun := runRepeat_exact h now L.toNat (L.toNat + 1) (by omega)
    rw [hcast] at hrun
    have e : L.toNat + 1 - L.toNat = 1 := by omega
    rw [e] at hrun
    simpa using hrun
  · exact check_step_next_window h now L L.toNat hL

/-- Witness for C3 (amended) at `api_key_id = "k"`, `L = 1`, bucket 2. -/
theorem rate_limit_minute_sequence_witness :
    runRepeat 120 "k" 1 2 [] = some ([true, false], [(mkKey "k" 2, 1)]) ∧
    check_rate_limit 180 "k" 1 [(mkKey "k" 2, 1)]
      = some (true, [(mkKey "k" 2, 1), (mkKey "k" 3, 1)]) :=
  rate_limit_minute_sequence "k" (by decide) 120 1 (by decide)

/-- C7 counterexample: three serialized invocations (one admissible
interleaving of three concurrent callers) with limit `N = 1` for the key id
`"b:0"` all return Allowed — more than `N` admissions in one bucket,
because the cleanup scan mis-parses the colon-bearing key id and erases the
counter on every call. -/
theorem concurrency_admission_counterexample :
    runRepeat 180 "b:0" 1 3 [] = some ([true, true, true], []) := by decide

/-- C7 (amended to key ids without `':'`, concurrency modelled as the
serialized interleavings the asyncio event loop produces — the function
body has no await points, so each call runs atomically): of `M > N`
calls in one bucket, exactly the first `N` are Allowed and the remaining
`M - N` are Throttled. -/
theorem rate_limit_exact_admission (api_key_id : String) (h : ':' ∉ api_key_id.data)
    (now : Int) (N M : Nat) (hMN : N < M) :
    runRepeat now api_key_id (N : Int) M []
      = some (List.replicate N true ++ List.replicate (M - N) false,
              [(mkKey api_key_id (now.fdiv 60), N)]) :=
  runRepeat_exact h now N M hMN

/-- Witness for C7 (amended): `M = 3` callers, limit `N = 1`: exactly one
Allowed, two Throttled. -/
theorem rate_limit_exact_admission_witness :
    runRepeat 240 "k" 1 3 [] = some ([true, false, false], [(mkKey "k" 4, 1)]) :=
  rate_limit_exact_admission "k" (by decide) 240 1 3 (by decide)

/-- C5 counterexample: a Throttled call returns before the cleanup scan, so
a stale entry (`"j:0"`, bucket 0) survives a call made in bucket 5 even
though 0 is older than the immediately-prior bucket 4. -/
theorem cleanup_skipped_on_throttle_counterexample :
    check_rate_limit 300 "k" 1 [(mkKey "k" 5, 1), (mkKey "j" 0, 1)]
      = some (false, [(mkKey "k" 5, 1), (mkKey "j" 0, 1)]) ∧
    cacheMinute (mkKey "j" 0) = some 0 ∧
    (0 : Int) < (300 : Int).fdiv 60 - 1 := by
  refine ⟨by decide, by decide, by decide⟩

/-- C5 (amended): only a call that returns Allowed performs the cleanup
scan, and after such a call every surviving well-formed key (id without
`':'`) belongs to the current or the immediately-prior minute bucket. -/
theorem cleanup_on_allowed (now : Int) (api_key_id : String) (L : Int)
    (cache c2 : RateCache)
    (hres : check_rate_limit now api_key_id L cache = some (true, c2)) :
    ∀ id2 w2, ':' ∉ id2.data → mkKey id2 w2 ∈ c2.map Prod.fst →
      now.fdiv 60 - 1 ≤ w2 := by
  intro id2 w2 hid2 hmem
  simp only [check_rate_limit] at hres
  set cache1 := if (cacheLookup cache (mkKey api_key_id (now.fdiv 60))).isSome
                then cache else cache ++ [(mkKey api_key_id (now.fdiv 60), 0)] with hc1
  split at hres
  · simp at hres
  · split at hres
    · have hc2 := (Prod.mk.injEq _ _ _ _).mp (Option.some.inj hres)
      rw [← hc2.2] at hmem
      rcases List.mem_map.mp hmem with ⟨e, he, hfst⟩
      have hpred := List.of_mem_filter he
      rw [hfst] at hpred
      rw [cacheMinute_mkKey hid2] at hpred
      simp only [Option.getD_some, Bool.not_eq_true', decide_eq_false_iff_not,
                 Int.not_lt] at hpred
      omega
    · exact Option.noConfusion hres

/-- Witness for C5 (amended): in bucket 5 an Allowed call drops the stale
`"j:0"` entry and keeps only the current-bucket entry, whose bucket 5 is
within the allowed range. -/
theorem cleanup_on_allowed_witness : (300 : Int).fdiv 60 - 1 ≤ 5 :=
  cleanup_on_allowed 300 "k" 1 [(mkKey "j" 0, 1)] [(mkKey "k" 5, 1)]
    (by decide) "k" 5 (by decide) (by decide)

/-- C9: with a non-positive stored limit every call returns Throttled,
including the first call of a fresh bucket: the counter is initialised to 0,
`0 >= rate_limit` already holds, and the call returns before incrementing
(the cache keeps the freshly initialised 0 entry). -/
theorem rate_limit_nonpositive (now : Int) (api_key_id : String) (L : Int)
    (cache : RateCache) (hL : L ≤ 0) :
    check_rate_limit now api_key_id L cache
      = some (false,
          if (cacheLookup cache (mkKey api_key_id (now.fdiv 60))).isSome
          then cache else cache ++ [(mkKey api_key_id (now.fdiv 60), 0)]) := by
  by_cases hk : (cacheLookup cache (mkKey api_key_id (now.fdiv 60))).isSome = true
  · have hcond : L ≤ (((cacheLookup cache
        (mkKey api_key_id (now.fdiv 60))).getD 0 : Nat) : Int) := by omega
    simp [check_rate_limit, ge_iff_le, hk, hcond]
  · rw [Bool.not_eq_true] at hk
    have hcond : L ≤ (((cacheLookup (cache ++ [(mkKey api_key_id (now.fdiv 60), 0)])
        (mkKey api_key_id (now.fdiv 60))).getD 0 : Nat) : Int) := by omega
    simp [check_rate_limit, ge_iff_le, hk, hcond]

/-- Witness for C9: limit 0, fresh cache — the very first call is
Throttled and the cache holds the initialised 0 counter. -/
theorem rate_limit_nonpositive_witness :
    check_rate_limit 0 "k" 0 [] = some (false, [(mkKey "k" 0, 0)]) :=
  rate_limit_nonpositive 0 "k" 0 [] (by decide)

/-! ### `track_usage` (api_key_middleware.py lines 164-245) -/

/-- Downstream response produced by `call_next`.  The optional side-channel
headers `X-Token-Count` / `X-Cost-USD` are modelled already parsed (the
values are only stored and sign-compared; floats are modelled as `ℚ`). -/
structure DownResp where
  status : Int
  tokensUsed : Option Int
  costUsd : Option ℚ
deriving DecidableEq

/-- The four fields attached to `request.state` on a valid key. -/
structure Identity where
  api_key_id : String
  api_key_user_id : Option String
  organization_id : Option String
  auth_method : String
deriving DecidableEq

/-- The `usage_data` dict handed to `track_usage` (the wall-clock
`processing_time_ms` field is not modelled). -/
structure UsageData where
  agent_id : String
  request_path : String
  method : String
  response_status : Int
  user_id : Option String
  organization_id : Option String
  tokens_used : Option Int
  cost_usd : Option ℚ
deriving DecidableEq

/-- Which Firestore operations raise during usage tracking. -/
structure TrackOracle where
  updateCounterFails : Bool
  addLogFails : Bool
  getSummaryFails : Bool
  summaryExists : Bool
  writeSummaryFails : Bool
deriving DecidableEq

/-- Store side effects performed by the usage tracker. -/
inductive TrackEffect where
  | counterUpdate (api_key_id : String)
  | logAdded (api_key_id : String) (d : UsageData)
  | billingUpdated (agent_id : String)
  | billingCreated (agent_id : String)
  | errorLogged
deriving DecidableEq

/-- Model of `APIKeyValidator._update_agent_billing_summary`: guarded by its own
`try/except`, it never raises; a failing get or write is logged. -/
def update_billing (o : TrackOracle) (agent_id : String) : List TrackEffect :=
  if o.getSummaryFails then [.errorLogged]
  else if o.summaryExists then
    if o.writeSummaryFails then [.errorLogged] else [.billingUpdated agent_id]
  else
    if o.writeSummaryFails then [.errorLogged] else [.billingCreated agent_id]

/-- The body of `track_usage` inside the `try`: counter update, usage-log
append, then the billing rollup when `cost_usd > 0`.  `.error es` is a
raised store exception after the effects `es` already happened. -/
def track_usage_core (o : TrackOracle) (api_key_id : String) (d : UsageData) :
    Except (List TrackEffect) (List TrackEffect) :=
  if o.updateCounterFails then .error [] else
  if o.addLogFails then .error [.counterUpdate api_key_id] else
  if d.cost_usd.getD 0 > 0 then
    .ok ([.counterUpdate api_key_id, .logAdded api_key_id d] ++ update_billing o d.agent_id)
  else
    .ok [.counterUpdate api_key_id, .logAdded api_key_id d]

/-- Model of `APIKeyValidator.track_usage`: the body is wrapped in `try/except`, so
a raised store error is logged and swallowed.  The `Except` layer records
what reaches the caller. -/
def track_usage (o : TrackOracle) (api_key_id : String) (d : UsageData) :
    Except Unit (List TrackEffect) :=
  match track_usage_core o api_key_id d with
  | .ok es => .ok es
  | .error es => .ok (es ++ [.errorLogged])

/-! ### `APIKeyMiddleware.__call__` (api_key_middleware.py lines 248-329) -/

/-- Character-list test underlying `str.startswith`. -/
def listPrefixOfBool : List Char → List Char → Bool
  | [], _ => true
  | _ :: _, [] => false
  | p :: ps, c :: cs => p == c && listPrefixOfBool ps cs

/-- Python `s.startswith(pre)`. -/
def pyStartsWith (s pre : String) : Bool := listPrefixOfBool pre.data s.data

/-- Python `s[n:]` (Python slices strings by character). -/
def pyDrop (s : String) (n : Nat) : String := ⟨s.data.drop n⟩

/-- Middleware result as seen by the framework: a JSON error response, the
downstream response passed through, or an exception propagating uncaught. -/
inductive MwResponse where
  | json (status : Int) (detail : String)
  | downstream (r : DownResp)
  | raised
deriving DecidableEq

/-- The observable outcome of one `APIKeyMiddleware.__call__`:
the response, whether the validator / rate limiter were invoked, the
identity attached to `request.state`, and the detached accounting task's
input and store effects. -/
structure MwOutcome where
  response : MwResponse
  validated : Bool
  rateChecked : Bool
  identity : Option Identity
  trackedUsage : Option UsageData
  trackEffects : List TrackEffect
deriving DecidableEq

/-- Model of `APIKeyMiddleware.__call__`.  `h`, `nowUtc`, `query` feed the
validator; `cache`, `nowSecs` feed the rate limiter; `callNext` is the
downstream handler (`.error` = it raises).  The `try` block spans
everything from validation to scheduling the accounting task, so `.raised`
can only come from the no-API-key passthrough. -/
def middleware_call (h : String → String) (nowUtc : Int)
    (query : Except Unit (List ApiKeyRecord))
    (cache : RateCache) (nowSecs : Int)
    (agent_id : String) (o : TrackOracle)
    (auth_header : Option String) (request_path request_method : String)
    (callNext : Except Unit DownResp) : MwOutcome :=
  let pass : MwOutcome :=
    { response := match callNext with
        | .error _ => .raised
        | .ok r => .downstream r,
      validated := false, rateChecked := false, identity := none,
      trackedUsage := none, trackEffects := [] }
  match auth_header with
  | none => pass
  | some ah =>
    if pyStartsWith ah "Bearer ak_" then
      let api_key := pyDrop ah 7
      match validate_api_key h nowUtc query api_key with
      | none =>
        { response := .json 401 "Invalid or inactive API key",
          validated := true, rateChecked := false, identity := none,
          trackedUsage := none, trackEffects := [] }
      | some key_doc =>
        match check_rate_limit nowSecs key_doc.id (key_doc.rate_limit.getD 100) cache with
        | none =>
          { response := .json 500 "API key validation failed",
            validated := true, rateChecked := true, identity := none,
            trackedUsage := none, trackEffects := [] }
        | some (ok, _cache2) =>
          if ok then
            let ident : Identity :=
              { api_key_id := key_doc.id,
                api_key_user_id := key_doc.created_by,
                organization_id := key_doc.organization_id,
                auth_method := "api_key" }
            match callNext with
            | .error _ =>
              { response := .json 500 "API key validation failed",
                validated := true, rateChecked := true, identity := some ident,
                trackedUsage := none, trackEffects := [] }
            | .ok resp =>
              let usage : UsageData :=
                { agent_id := agent_id, request_path := request_path,
                  method := request_method, response_status := resp.status,
                  user_id := key_doc.created_by,
                  organization_id := key_doc.organization_id,
                  tokens_used := resp.tokensUsed, cost_usd := resp.costUsd }
              { response := .downstream resp,
                validated := true, rateChecked := true, identity := some ident,
                trackedUsage := some usage,
                trackEffects := match track_usage o key_doc.id usage with
                  | .ok es => es
                  | .error _ => [] }
          else
            { response := .json 429 "Rate limit exceeded",
              validated := true, rateChecked := true, identity := none,
              trackedUsage := none, trackEffects := [] }
    else
      pass

/-- C6: with no authorization header, or one that does not start with
`"Bearer ak_"`, the request is forwarded unchanged: the downstream result
(including a downstream exception) is returned as-is, the validator is not
queried, no rate-limit check (hence no counter increment) happens, no
identity is attached, and no usage is tracked. -/
theorem middleware_passthrough (h : String → String) (nowUtc : Int)
    (query : Except Unit (List ApiKeyRecord)) (cache : RateCache) (nowSecs : Int)
    (agent_id : String) (o : TrackOracle) (auth_header : Option String)
    (request_path request_method : String) (callNext : Except Unit DownResp)
    (hauth : auth_header = none ∨
      ∀ s, auth_header = some s → pyStartsWith s "Bearer ak_" = false) :
    middleware_call h nowUtc query cache nowSecs agent_id o auth_header
        request_path request_method callNext
      = { response := match callNext with
            | .error _ => .raised
            | .ok r => .downstream r,
          validated := false, rateChecked := false, identity := none,
          trackedUsage := none, trackEffects := [] } := by
  rcases hauth with rfl | hpre
  · rfl
  · cases auth_header with
    | none => rfl
    | some s =>
      simp [middleware_call, hpre s rfl]

/-- Witness for C6: a request with no authorization header passes the
downstream response through with no validation, rate check, identity or
accounting. -/
theorem middleware_passthrough_witness :
    middleware_call (fun s => s) 0 (.ok []) [] 0 "agent"
        ⟨false, false, false, false, false⟩ none "/" "POST"
        (.ok { status := 200, tokensUsed := none, costUsd := none })
      = { response := .downstream { status := 200, tokensUsed := none, costUsd := none },
          validated := false, rateChecked := false, identity := none,
          trackedUsage := none, trackEffects := [] } :=
  middleware_passthrough (fun s => s) 0 (.ok []) [] 0 "agent"
    ⟨false, false, false, false, false⟩ none "/" "POST"
    (.ok { status := 200, tokensUsed := none, costUsd := none }) (Or.inl rfl)

/-- C10: on a request whose bearer token has the API-key form, the
middleware never lets an exception propagate to the framework, and an
exception raised by the downstream handler (`call_next`) on an
authenticated, rate-admitted request is converted into exactly the 500
response with detail "API key validation failed". -/
theorem middleware_catches_downstream (h : String → String) (nowUtc : Int)
    (query : Except Unit (List ApiKeyRecord)) (cache : RateCache) (nowSecs : Int)
    (agent_id : String) (o : TrackOracle) (ah : String)
    (request_path request_method : String) (callNext : Except Unit DownResp)
    (hpre : pyStartsWith ah "Bearer ak_" = true) :
    (middleware_call h nowUtc query cache nowSecs agent_id o (some ah)
        request_path request_method callNext).response ≠ .raised ∧
    (∀ kd, validate_api_key h nowUtc query (pyDrop ah 7) = some kd →
      ∀ c2, check_rate_limit nowSecs kd.id (kd.rate_limit.getD 100) cache
              = some (true, c2) →
      callNext = .error () →
      (middleware_call h nowUtc query cache nowSecs agent_id o (some ah)
          request_path request_method callNext).response
        = .json 500 "API key validation failed") := by
  constructor
  · simp only [middleware_call, hpre, if_true]
    cases hv : validate_api_key h nowUtc query (pyDrop ah 7) with
    | none => simp [hv]
    | some kd =>
      cases hc : check_rate_limit nowSecs kd.id (kd.rate_limit.getD 100) cache with
      | none => simp [hv, hc]
      | some pr =>
        obtain ⟨ok, c2⟩ := pr
        cases ok with
        | false => simp [hv, hc]
        | true =>
          cases callNext with
          | error e => simp [hv, hc]
          | ok r => simp [hv, hc]
  · intro kd hkd c2 hc2 hcn
    subst hcn
    simp [middleware_call, hpre, hkd, hc2]

/-- Witness for C10: a matching key, empty rate cache and a raising
downstream handler produce the 500 "API key validation failed" response. -/
theorem middleware_catches_downstream_witness :
    (middleware_call (fun _ => "d") 0
        (.ok [{ id := "k1", key_hash := some "d", expires_at := none,
                rate_limit := none, created_by := none, organization_id := none }])
        [] 0 "agent" ⟨false, false, false, false, false⟩ (some "Bearer ak_x")
        "/" "POST" (.error ())).response
      = .json 500 "API key validation failed" :=
  (middleware_catches_downstream (fun _ => "d") 0
      (.ok [{ id := "k1", key_hash := some "d", expires_at := none,
              rate_limit := none, created_by := none, organization_id := none }])
      [] 0 "agent" ⟨false, false, false, false, false⟩ "Bearer ak_x"
      "/" "POST" (.error ()) (by decide)).2
    { id := "k1", key_hash := some "d", expires_at := none,
      rate_limit := none, created_by := none, organization_id := none }
    (by decide) [(mkKey "k1" 0, 1)] (by decide) rfl

/-- C4 counterexample: a raised store query is swallowed inside
`validate_api_key` — the result is `none`, identical to an unknown key —
and the middleware turns a store failure into the same 401 it gives an
invalid key, not a 500. -/
theorem store_error_conflated_counterexample :
    validate_api_key (fun s => s) 0 (.error ()) "k" = none ∧
    validate_api_key (fun s => s) 0 (.ok []) "k" = none ∧
    (middleware_call (fun s => s) 0 (.error ()) [] 0 "agent"
        ⟨false, false, false, false, false⟩ (some "Bearer ak_k") "/" "POST"
        (.ok { status := 200, tokensUsed := none, costUsd := none })).response
      = .json 401 "Invalid or inactive API key" :=
  ⟨rfl, rfl, rfl⟩

/-- C4 (amended): a store exception during validation is caught inside
`validate_api_key` and surfaces as `none`, indistinguishable from an
invalid key, so the middleware answers 401 — not 500 — when the store is
unavailable; the 500 branch covers only exceptions raised after
validation returns (rate check, downstream call, header parsing). -/
theorem store_error_yields_401 (h : String → String) (nowUtc : Int)
    (api_key : String) (cache : RateCache) (nowSecs : Int) (agent_id : String)
    (o : TrackOracle) (ah : String) (request_path request_method : String)
    (callNext : Except Unit DownResp)
    (hpre : pyStartsWith ah "Bearer ak_" = true) :
    validate_api_key h nowUtc (.error ()) api_key = none ∧
    (middleware_call h nowUtc (.error ()) cache nowSecs agent_id o (some ah)
        request_path request_method callNext).response
      = .json 401 "Invalid or inactive API key" := by
  refine ⟨rfl, ?_⟩
  simp [middleware_call, hpre, validate_api_key]

/-- Witness for C4 (amended): concrete store failure gives 401. -/
theorem store_error_yields_401_witness :
    validate_api_key (fun s => s) 7 (.error ()) "ak_z" = none ∧
    (middleware_call (fun s => s) 7 (.error ()) [] 7 "agent"
        ⟨false, false, false, false, false⟩ (some "Bearer ak_z") "/" "GET"
        (.ok { status := 200, tokensUsed := none, costUsd := none })).response
      = .json 401 "Invalid or inactive API key" :=
  store_error_yields_401 (fun s => s) 7 "ak_z" [] 7 "agent"
    ⟨false, false, false, false, false⟩ "Bearer ak_z" "/" "GET"
    (.ok { status := 200, tokensUsed := none, costUsd := none }) (by decide)

/-- C8: `track_usage` never raises to its caller — every store failure in
the counter update, log append or billing rollup is caught and replaced by
an error-log effect — and the middleware's response does not depend on the
tracking oracle (accounting failures cannot alter the response already
produced). -/
theorem track_usage_never_raises (o : TrackOracle) (api_key_id : String) (d : UsageData) :
    (track_usage o api_key_id d).isOk = true ∧
    (∀ es, track_usage_core o api_key_id d = .error es →
      track_usage o api_key_id d = .ok (es ++ [.errorLogged])) ∧
    (∀ (h : String → String) (nowUtc : Int) (query : Except Unit (List ApiKeyRecord))
        (cache : RateCache) (nowSecs : Int) (agent_id : String)
        (auth_header : Option String) (request_path request_method : String)
        (callNext : Except Unit DownResp) (o2 : TrackOracle),
      (middleware_call h nowUtc query cache nowSecs agent_id o auth_header
          request_path request_method callNext).response
        = (middleware_call h nowUtc query cache nowSecs agent_id o2 auth_header
            request_path request_method callNext).response) := by
  refine ⟨?_, ?_, ?_⟩
  · unfold track_usage
    cases hcore : track_usage_core o api_key_id d <;> rfl
  · intro es he
    unfold track_usage
    rw [he]
  · intro h nowUtc query cache nowSecs agent_id auth_header rp rm callNext o2
    cases auth_header with
    | none => rfl
    | some ah =>
      simp only [middleware_call]
      by_cases hpre : pyStartsWith ah "Bearer ak_" = true
      · simp only [hpre, if_true]
        cases hv : validate_api_key h nowUtc query (pyDrop ah 7) with
        | none => simp [hv]
        | some kd =>
          cases hc : check_rate_limit nowSecs kd.id (kd.rate_limit.getD 100) cache with
          | none => simp [hv, hc]
          | some pr =>
            obtain ⟨ok, c2⟩ := pr
            cases ok with
            | false => simp [hv, hc]
            | true =>
              cases callNext with
              | error e => simp [hv, hc]
              | ok r => simp [hv, hc]
      · simp only [Bool.not_eq_true] at hpre
        simp only [hpre, Bool.false_eq_true, if_false]

/-- Witness for C8: with a failing counter update the raised store error is
swallowed and logged. -/
theorem track_usage_never_raises_witness :
    (track_usage ⟨true, false, false, false, false⟩ "k"
        { agent_id := "a", request_path := "/", method := "POST",
          response_status := 200, user_id := none, organization_id := none,
          tokens_used := none, cost_usd := none }).isOk = true ∧
    track_usage ⟨true, false, false, false, false⟩ "k"
        { agent_id := "a", request_path := "/", method := "POST",
          response_status := 200, user_id := none, organization_id := none,
          tokens_used := none, cost_usd := none }
      = .ok ([] ++ [.errorLogged]) :=
  ⟨(track_usage_never_raises ⟨true, false, false, false, false⟩ "k"
      { agent_id := "a", request_path := "/", method := "POST",
        response_status := 200, user_id := none, organization_id := none,
        tokens_used := none, cost_usd := none }).1,
   (track_usage_never_raises ⟨true, false, false, false, false⟩ "k"
      { agent_id := "a", request_path := "/", method := "POST",
        response_status := 200, user_id := none, organization_id := none,
        tokens_used := none, cost_usd := none }).2.1 [] rfl⟩

end ApiKeyMw
